import Mathlib

/-!
# Verification of the py_liant CRUD layer (`src/py_liant/pyramid.py`)

Shallow embedding of the query-building and mutation-orchestration engine of
`py_liant.pyramid`: filter resolution (`get_query_filters`), order resolution
(`order_clauses`, a Python generator), pagination (`pager_slice` and query
slicing), search composition (`get_search_results`, including the
`use_subquery_after_filter` branch that reassigns `accept_order`), single-row
lookup (`get_by_id`), the `update` mutation with its conflict-translation
policy, `auto_filters` derivation, and the JSON renderer factory's streaming
versus fallback paths.

Modelling conventions:
* Python exceptions become an `Except PyErr` result; the distinct exception
  classes of the source are the constructors of `PyErr`.
* Registries (`filters`, `accept_order`) are Python dicts, modelled as
  association lists with distinct keys; `dlookup` is dict lookup.
* The ORM result set is a `List Row`; `query.filter` is `List.filter`,
  `query.count()` is `List.length`, `order_by` is an abstract store-side
  reordering function, and `Query.__getitem__` with a slice is Python slice
  semantics (`pySlice`).
* `page`/`pageSize` are read through Python `int()`; we model the parsed
  integers directly (an `Option Int` each, `none` when the parameter is
  absent), leaving unparsable strings out of scope.
-/

deriving instance DecidableEq for Except

namespace PyLiant

/-- The exception classes appearing in `pyramid.py`: SQLAlchemy's
`NoResultFound`, `MultipleResultsFound` and `StaleDataError`, pyramid's
`HTTPNotFound`, `HTTPConflict` and `HTTPServerError`, the module's own
`VersionCheckError`, and a catch-all for any unrelated error. -/
inductive PyErr where
  | noResultFound
  | multipleResultsFound
  | httpNotFound
  | httpConflict (msg : String)
  | httpServerError (msg : String)
  | versionCheckError (msg : String)
  | staleDataError (msg : String)
  | otherError (msg : String)
deriving DecidableEq, Repr

/-- Python dict lookup (first match; registry dicts have distinct keys). -/
def dlookup (k : String) : List (String × β) → Option β
  | [] => none
  | (k', v) :: rest => if k = k' then some v else dlookup k rest

/-! ## Python string primitives used by `order_clauses`

Python `str.split(",")`, `str.endswith(" desc")`, `item[:-5]` and
`", ".join(...)`, written by structural recursion over the character data so
that concrete instances evaluate by kernel reduction. -/

/-- Split a character list at every occurrence of `c`, keeping empty
segments (Python `str.split` with an explicit separator). -/
def pySplitChar (c : Char) : List Char → List (List Char)
  | [] => [[]]
  | x :: xs =>
    let rest := pySplitChar c xs
    if x = c then [] :: rest
    else
      match rest with
      | [] => [[x]]
      | g :: gs => (x :: g) :: gs

/-- Python `s.split(c)` for a one-character separator. -/
def pySplit (s : String) (c : Char) : List String :=
  (pySplitChar c s.data).map String.mk

/-- Python `s.endswith(suffix)`. -/
def pyEndsWith (s sfx : String) : Bool :=
  sfx.data.isSuffixOf s.data

/-- Python `s[:-n]` for `n ≥ 0`: all but the last `n` characters. -/
def pyDropRight (s : String) (n : Nat) : String :=
  String.mk (s.data.take (s.data.length - n))

/-- Python `sep.join(parts)`. -/
def pyJoin (sep : String) : List String → String
  | [] => ""
  | a :: as => as.foldl (fun acc s => acc ++ sep ++ s) a

/-! ## Order registry and `order_clauses` (source lines 130-146) -/

/-- A value of the `accept_order` registry: a single orderable expression or a
list of expressions (composite sort keys). -/
inductive OrderVal (E : Type) where
  | single (e : E)
  | exprs (es : List E)
deriving DecidableEq, Repr

/-- An element handed to `order_by`: an expression ascending (`elem`), an
expression with `.desc()` applied, or the bare Python `False` no-op sentinel
(the value in the generator's `return [False]` statement, which would be
passed to `order_by` only if it were ever yielded). -/
inductive OrderElem (E : Type) where
  | asc (e : E)
  | desc (e : E)
  | sentinel
deriving DecidableEq, Repr

/-- Apply the direction flag of a parsed order token: `elem.desc() if item[1]
else elem`. -/
def applyDir (d : Bool) (e : E) : OrderElem E :=
  if d then .desc e else .asc e

/-- `CRUDView.order_clauses` (lines 130-146). The Python function is a
*generator* (its body contains `yield`); iterating it produces the sequence
modelled here, and an exception raised in the body surfaces on iteration.
Note the consequence for line 133: inside a generator, `return [False]`
terminates iteration without yielding anything, so the absent/empty-order
case produces the *empty* sequence of clauses. -/
def order_clauses (orderParam : Option String) (accept_order : List (String × OrderVal E)) :
    Except PyErr (List (OrderElem E)) :=
  match orderParam with
  | none => .ok []        -- 'order' not in request.GET: generator returns, yielding nothing
  | some s =>
    if s = "" then .ok [] -- request.GET['order'] == "": same
    else
      let orders := (pySplit s ',').map fun item =>
        if pyEndsWith item " desc" then (pyDropRight item 5, true) else (item, false)
      if orders.any (fun o => (dlookup o.1 accept_order).isNone) then
        .error (.httpServerError ("not implemented, order by " ++
          pyJoin ", " ((orders.filter
            (fun o => (dlookup o.1 accept_order).isNone)).map (·.1))))
      else
        .ok (orders.flatMap fun o =>
          match dlookup o.1 accept_order with
          | some (.single e) => [applyDir o.2 e]
          | some (.exprs es) => es.map (applyDir o.2)
          | none => [])    -- unreachable under the membership guard

/-! ## Pagination (`pager_slice`, lines 148-156, and `query[pager]`) -/

/-- `CRUDView.pager_slice`: `none` models the Python `False` (no pagination);
`some (a, b)` models `slice(a, b)`. The two arguments are the parsed values
of `pageSize` and `page` (`none` when the query parameter is absent). -/
def pager_slice (pageSizeParam pageParam : Option Int) : Option (Int × Int) :=
  match pageSizeParam with
  | none => none
  | some page_size =>
    if page_size ≤ 0 then none
    else
      let page := pageParam.getD 0
      some (page * page_size, page * page_size + page_size)

/-- Normalize one bound of a Python slice against a list length. -/
def pySliceIdx (len : Nat) (i : Int) : Nat :=
  if i < 0 then (len + i).toNat else min i.toNat len

/-- Python slice semantics `l[a:b]` (step 1). This is what
`Query.__getitem__` evaluates to: for `0 ≤ a ≤ b` it is the LIMIT/OFFSET
window, and SQLAlchemy falls back to slicing the materialized list for
negative bounds. -/
def pySlice (l : List α) (a b : Int) : List α :=
  let ia := pySliceIdx l.length a
  let ib := pySliceIdx l.length b
  (l.drop ia).take (ib - ia)

/-- `query[pager] if pager else query.all()` (line 180): the slice object is
truthy, Python `False` (here `none`) is falsy. -/
def applyPager (pager : Option (Int × Int)) (l : List α) : List α :=
  match pager with
  | none => l
  | some (a, b) => pySlice l a b

/-! ## Filter resolution (`get_query_filters`, lines 116-124) -/

/-- A value returned by a filter builder: Python `None`, a single predicate,
or a list/tuple of (possibly `None`) predicates. -/
inductive BRes (P : Type) where
  | null
  | single (p : P)
  | many (ps : List (Option P))
deriving DecidableEq, Repr

/-- The contribution of one builder result to the flat predicate list, per
the source's two comprehensions: a single non-`None` result contributes
itself, a list/tuple contributes its non-`None` elements, `None` contributes
nothing. -/
def bresElems : BRes P → List P
  | .null => []
  | .single p => [p]
  | .many ps => ps.filterMap id

/-- One step of the `tmp` comprehension (lines 117-118): the builder of a
registry entry is invoked exactly when its key is in `request.GET` and not
excluded. -/
def gqf_entry (GET : List (String × String)) (exclude : Option (List String))
    (kv : String × (String → BRes P)) : Option (BRes P) :=
  match dlookup kv.1 GET with
  | none => none
  | some v =>
    match exclude with
    | none => some (kv.2 v)
    | some ex => if kv.1 ∈ ex then none else some (kv.2 v)

/-- `CRUDView.get_query_filters` (lines 116-124): invoke the builder of every
registry key present in `request.GET` (and not excluded), then return the
single (non-list) non-`None` results, followed by the flattened non-`None`
elements of list/tuple results, followed by `runtime_filters()`. -/
def get_query_filters (filters : List (String × (String → BRes P)))
    (GET : List (String × String)) (exclude : Option (List String))
    (runtime : List P) : List P :=
  let tmp := filters.filterMap (gqf_entry GET exclude)
  (tmp.filterMap fun r => match r with | .single p => some p | _ => none)
    ++ (tmp.flatMap fun r => match r with | .many ps => ps.filterMap id | _ => [])
    ++ runtime

/-! ## Single-row lookup (`get_by_id`, lines 101-114) -/

/-- SQLAlchemy `Query.one()`: exactly one row or an error. -/
def one : List α → Except PyErr α
  | [] => .error .noResultFound
  | [x] => .ok x
  | _ :: _ :: _ => .error .multipleResultsFound

/-- `CRUDView.get_by_id` (lines 101-114):
`query.filter(self.context_filter, self.identity_filter).one()` with only
`NoResultFound` translated to `HTTPNotFound`. The `update_lock` /
`with_for_update` branch acquires a row lock and does not change which row is
returned, so it has no effect in this single-request model. -/
def get_by_id (rows : List Row) (context_filter identity_filter : Row → Bool) :
    Except PyErr Row :=
  match one (rows.filter fun r => context_filter r && identity_filter r) with
  | .error .noResultFound => .error .httpNotFound
  | r => r

/-! ## Search composition (`get_search_results`, lines 167-180) -/

/-- The per-request mutable view attributes consulted by
`get_search_results`: the two registries and the subquery flag
(class attributes of `CRUDView`, lines 71-81). -/
structure ViewState (Row E : Type) where
  filters : List (String × (String → BRes (Row → Bool)))
  accept_order : List (String × OrderVal E)
  use_subquery_after_filter : Bool

/-- The collaborating environment of one search request: the base result set
(`get_list_base()` over the store), the context restriction, the query
string, the parsed pagination parameters, the runtime filters, the store's
`ORDER BY` evaluation, and `dict(query.c)` — the column map of the filtered
subquery used by the `use_subquery_after_filter` branch (line 176). -/
structure SearchEnv (Row E : Type) where
  rows : List Row
  context_filter : Row → Bool
  GET : List (String × String)
  pageSizeParam : Option Int
  pageParam : Option Int
  runtime : List (Row → Bool)
  order_by : List (OrderElem E) → List Row → List Row
  subquery_c : List (String × E)

/-- `CRUDView.get_search_results` (lines 167-180), with the default
`query=None` argument: filter by context, apply the resolved query filters,
take the pager slice, count the filtered set, then (in the subquery branch)
*reassign* `self.accept_order` to `dict(query.c)` before ordering, or (in the
plain branch) order directly; finally slice if a pager is present. Returns
the operation's result together with the view state after the request. -/
def get_search_results (env : SearchEnv Row E) (st : ViewState Row E) :
    Except PyErr (List Row × Nat) × ViewState Row E :=
  let query0 := env.rows.filter env.context_filter
  let qfs := get_query_filters st.filters env.GET none env.runtime
  let query1 := query0.filter fun r => qfs.all fun p => p r
  let pager := pager_slice env.pageSizeParam env.pageParam
  let count := query1.length
  let st2 :=
    if st.use_subquery_after_filter then
      { st with accept_order := env.subquery_c.map fun kc => (kc.1, OrderVal.single kc.2) }
    else st
  match order_clauses (dlookup "order" env.GET) st2.accept_order with
  | .error e => (.error e, st2)
  | .ok clauses => (.ok (applyPager pager (env.order_by clauses query1), count), st2)

/-! ## `auto_filters` (lines 220-240) -/

/-- The SQLAlchemy column types this entity model distinguishes; only
`String` matters to `auto_filters` (the `isinstance(..., String)` test on
line 234). -/
inductive ColType where
  | string
  | integer
  | boolean
  | dateTime
deriving DecidableEq, Repr

/-- A mapped scalar column attribute (an ORM descriptor with a
`ColumnProperty`): its attribute key and its column type. -/
structure ColAttr where
  key : String
  colType : ColType
deriving DecidableEq, Repr

/-- The predicate expressions built by the `auto_filters` lambdas, as an AST:
`attr == coerced`, `attr.ilike('%'+x+'%')`, and the four order comparisons.
`V` is the type of coerced native values. -/
inductive FilterPred (V : Type) where
  | eq (attr : ColAttr) (v : V)
  | ilike (attr : ColAttr) (pattern : String)
  | gt (attr : ColAttr) (v : V)
  | ge (attr : ColAttr) (v : V)
  | lt (attr : ColAttr) (v : V)
  | le (attr : ColAttr) (v : V)
deriving DecidableEq, Repr

/-- The dict entries contributed by one mapped scalar attribute inside the
`auto_filters` loop body (lines 232-239). -/
def auto_filters_item (coerce : ColAttr → String → V) (pfx : String)
    (item : ColAttr) : List (String × (String → FilterPred V)) :=
  let key := pfx ++ item.key
  [(key, fun x => .eq item (coerce item x))]
    ++ (if item.colType = .string then
          [(key ++ "_like", fun x => .ilike item ("%" ++ x ++ "%"))]
        else [])
    ++ [(key ++ "_gt", fun x => .gt item (coerce item x)),
        (key ++ "_ge", fun x => .ge item (coerce item x)),
        (key ++ "_lt", fun x => .lt item (coerce item x)),
        (key ++ "_le", fun x => .le item (coerce item x))]

/-- `CRUDView.auto_filters` (lines 220-240). `coerce` abstracts
`coerce_value(target, attr.property.columns[0], x, False)` (defined in the
`monkeypatch` module, outside this file's source). For each mapped scalar
attribute the dict receives the equality key, the `_like` key only for
`String`-typed columns, then `_gt`, `_ge`, `_lt`, `_le`, in source order. -/
def auto_filters (coerce : ColAttr → String → V) (attrs : List ColAttr)
    (pfx : String) : List (String × (String → FilterPred V)) :=
  attrs.flatMap (auto_filters_item coerce pfx)

/-! ## `update` (lines 192-203) and its collaborators -/

/-- A persisted row of the target entity type: primary identity, the
optimistic-concurrency version field, and its scalar payload. -/
structure Entity where
  id : Nat
  version : Nat
  payload : String
deriving DecidableEq, Repr

/-- The decoded request body for an update: the caller-supplied version
marker (when the entity type carries one) and the new field values. -/
structure UpdateInput where
  versionParam : Option Nat
  payload : String
deriving DecidableEq, Repr

/-- Modelled from the spec: the entity-level `apply_changes` invoked by
`CRUDView.apply_changes` (line 190) is defined on the mapped objects by the
JSON-decoder/monkeypatch modules, which are not part of this source file.
Per the spec it applies the field-level changes from the input and, when the
entity carries a version/revision field and the input distributes one,
compares it against the row's current version, raising `VersionCheckError`
on mismatch; on success the version marker advances. -/
def entity_apply_changes (obj : Entity) (data : UpdateInput) : Except PyErr Entity :=
  match data.versionParam with
  | some v =>
    if v = obj.version then
      .ok { obj with payload := data.payload, version := obj.version + 1 }
    else .error (.versionCheckError "version check failed")
  | none => .ok { obj with payload := data.payload }

/-- Modelled from the spec: the `transaction.manager` scope (an external
collaborator) — run the body, commit its writes on success, roll every write
back when the body raises. `staleOnCommit` injects SQLAlchemy's
`StaleDataError` at commit time (a write racing another committed write);
the staleness message is carried so its translation can be observed. A
failed commit persists nothing. -/
def transaction_scope (db : List Entity) (staleOnCommit : Option String)
    (body : List Entity → Except PyErr (List Entity)) :
    Except PyErr Unit × List Entity :=
  match body db with
  | .error e => (.error e, db)
  | .ok db2 =>
    match staleOnCommit with
    | some m => (.error (.staleDataError m), db)
    | none => (.ok (), db2)

/-- `CRUDView.update` (lines 192-203), parameterized over the (overridable)
`apply_changes` step: inside the transaction, fetch the row, decode the
input, and translate `VersionCheckError` from `apply_changes` into
`HTTPConflict(str(ex))`; around the transaction, translate `StaleDataError`
into `HTTPConflict(str(ex))`; finally `return self.get()`, a fresh read of
the row. Returns the response (or error) together with the store after the
request. -/
def update (applyChanges : Entity → UpdateInput → Except PyErr Entity)
    (db : List Entity) (context_filter identity_filter : Entity → Bool)
    (input : UpdateInput) (staleOnCommit : Option String) :
    Except PyErr Entity × List Entity :=
  let body : List Entity → Except PyErr (List Entity) := fun d =>
    match get_by_id d context_filter identity_filter with
    | .error e => .error e
    | .ok old =>
      match applyChanges old input with
      | .error (.versionCheckError m) => .error (.httpConflict m)
      | .error e => .error e
      | .ok newRow =>
        .ok (d.map fun r => if context_filter r && identity_filter r then newRow else r)
  match transaction_scope db staleOnCommit body with
  | (.error (.staleDataError m), d) => (.error (.httpConflict m), d)
  | (.error e, d) => (.error e, d)
  | (.ok _, d) =>
    match get_by_id d context_filter identity_filter with
    | .error e => (.error e, d)
    | .ok obj => (.ok obj, d)

/-! ## The JSON renderer factory (lines 21-54) -/

/-- UTF-8 bytes of a string, character by character (`str.encode()`). -/
def strBytes (s : String) : List UInt8 :=
  s.data.flatMap String.utf8EncodeChar

/-- What `_render` hands to the response layer: `response.app_iter` set to
the byte-chunk generator (solution 2), per-chunk `response.write` of the
string chunks (solution 1), or the fully materialized string returned by the
fallback branch. -/
inductive RenderResult where
  | appIter (chunks : List (List UInt8))
  | written (chunks : List String)
  | body (s : String)

/-- The `_render` closure of `pyramid_json_renderer_factory` (lines 23-52),
parameterized over the encoder's chunk stream. Modelled from the spec:
`JSONEncoder` lives in the `json_encoder` module outside this source file;
per the spec (and the stdlib contract it wraps) `iterencode` yields the
chunks of the serialization of an acyclic value and `encode` returns their
concatenation as one materialized string, the same bytes on both renderer
paths for a given `base_type` and separators. -/
def pyramid_render (iterencode : Val → List String) (stream_method : Nat)
    (requestPresent : Bool) (value : Val) : RenderResult :=
  if requestPresent then
    if stream_method = 0 then .written (iterencode value)
    else .appIter ((iterencode value).map strBytes)
  else .body (String.join (iterencode value))

/-! ## Helper lemmas -/

theorem dlookup_cons (k k' : String) (v : β) (l : List (String × β)) :
    dlookup k ((k', v) :: l) = if k = k' then some v else dlookup k l := rfl

theorem dlookup_cons_ne (k k' : String) (v : β) (l : List (String × β))
    (h : k ≠ k') : dlookup k ((k', v) :: l) = dlookup k l := by
  simp [dlookup, h]

theorem dlookup_append (k : String) (l1 l2 : List (String × β)) :
    dlookup k (l1 ++ l2)
      = match dlookup k l1 with
        | some v => some v
        | none => dlookup k l2 := by
  induction l1 with
  | nil => simp [dlookup]
  | cons a l ih =>
    by_cases h : k = a.1
    · simp [dlookup, h]
    · simp [dlookup, h, ih]

/-! ## Claim theorems -/

/-- **C7**: `get_by_id` requires exactly one row matching the context
restriction ANDed with the identity restriction: zero matches raise
`HTTPNotFound`; more than one match propagates the `MultipleResultsFound`
error of `Query.one()` untranslated (no row is silently picked, and it is
not reported as not-found); exactly one match returns that entity. -/
theorem getById_exactly_one (rows : List Row) (cf idf : Row → Bool) :
    (rows.filter (fun r => cf r && idf r) = [] →
      get_by_id rows cf idf = .error .httpNotFound)
    ∧ (2 ≤ (rows.filter (fun r => cf r && idf r)).length →
      get_by_id rows cf idf = .error .multipleResultsFound)
    ∧ (∀ x, rows.filter (fun r => cf r && idf r) = [x] →
      get_by_id rows cf idf = .ok x) := by
  refine ⟨fun h => ?_, fun h => ?_, fun x h => ?_⟩
  · simp [get_by_id, h, one]
  · rcases hm : rows.filter (fun r => cf r && idf r) with _ | ⟨a, _ | ⟨b, t⟩⟩
    · rw [hm] at h; simp at h
    · rw [hm] at h; simp at h
    · simp [get_by_id, hm, one]
  · simp [get_by_id, h, one]

/-- Witness for `getById_exactly_one` at concrete inputs. -/
theorem getById_exactly_one_witness :
    get_by_id ([] : List Nat) (fun _ => true) (fun _ => true) = .error .httpNotFound
    ∧ get_by_id [1, 2] (fun _ => true) (fun _ => true) = .error .multipleResultsFound
    ∧ get_by_id [5] (fun _ => true) (fun _ => true) = .ok 5 :=
  ⟨(getById_exactly_one [] _ _).1 rfl,
   (getById_exactly_one [1, 2] _ _).2.1 (by decide),
   (getById_exactly_one [5] _ _).2.2 5 rfl⟩

/-- **C8** (counterexample): with the `order` parameter absent (and likewise
empty), `order_clauses` does not yield the `False` sentinel as its only
element — being a generator, its `return [False]` terminates iteration
without yielding anything, so the resolution is the empty sequence. -/
theorem orderClauses_sentinel_counterexample :
    order_clauses (E := Nat) none [("name", .single 0)] = .ok []
    ∧ order_clauses (E := Nat) none [("name", .single 0)] ≠ .ok [.sentinel]
    ∧ order_clauses (E := Nat) (some "") [("name", .single 0)] = .ok []
    ∧ order_clauses (E := Nat) (some "") [("name", .single 0)] ≠ .ok [.sentinel] :=
  ⟨rfl, by decide, rfl, by decide⟩

/-- **C8** (amended): when the `order` query parameter is absent or empty,
`order_clauses` yields no elements at all (the `return [False]` sentinel is
swallowed by generator semantics), and the composed search query still
executes successfully: `order_by` receives the empty clause sequence, i.e.
no per-token ordering expressions. -/
theorem orderClauses_default_amended (env : SearchEnv Row E) (st : ViewState Row E)
    (h : dlookup "order" env.GET = none ∨ dlookup "order" env.GET = some "") :
    (∀ acc : List (String × OrderVal E),
      order_clauses (dlookup "order" env.GET) acc = .ok [])
    ∧ (get_search_results env st).1 = .ok
        (applyPager (pager_slice env.pageSizeParam env.pageParam)
          (env.order_by []
            ((env.rows.filter env.context_filter).filter fun r =>
              (get_query_filters st.filters env.GET none env.runtime).all fun p => p r)),
         ((env.rows.filter env.context_filter).filter fun r =>
            (get_query_filters st.filters env.GET none env.runtime).all fun p => p r).length) := by
  have hoc : ∀ acc : List (String × OrderVal E),
      order_clauses (dlookup "order" env.GET) acc = .ok [] := by
    intro acc
    rcases h with h | h <;> simp [order_clauses, h]
  refine ⟨hoc, ?_⟩
  simp only [get_search_results, hoc]

/-- Witness for `orderClauses_default_amended` at a concrete request. -/
theorem orderClauses_default_amended_witness :
    (get_search_results
      { rows := [1, 2, 3], context_filter := fun _ => true, GET := [],
        pageSizeParam := none, pageParam := none, runtime := [],
        order_by := fun _ l => l, subquery_c := [] }
      { filters := [], accept_order := [("name", OrderVal.single (0 : Nat))],
        use_subquery_after_filter := false }).1 = .ok ([1, 2, 3], 3) :=
  ((orderClauses_default_amended
    { rows := [1, 2, 3], context_filter := fun _ => true, GET := [],
      pageSizeParam := none, pageParam := none, runtime := [],
      order_by := fun _ l => l, subquery_c := [] }
    { filters := [], accept_order := [("name", OrderVal.single (0 : Nat))],
      use_subquery_after_filter := false } (Or.inl rfl)).2).trans (by decide)

/-- **C4**: resolving a non-empty `order` parameter splits it on commas,
treats a trailing `" desc"` as the descending marker, and either (if any
token's base key is unregistered) raises the `HTTPServerError` naming every
unrecognized key in token order, or (otherwise) produces, in token order,
each registered expression with the token's direction applied, a list-valued
registry entry expanding into one element per expression with the shared
direction. -/
theorem orderClauses_resolution (accept : List (String × OrderVal E)) (s : String)
    (hs : s ≠ "") (orders : List (String × Bool))
    (ho : orders = (pySplit s ',').map fun item =>
      if pyEndsWith item " desc" then (pyDropRight item 5, true) else (item, false))
    (missing : List (String × Bool))
    (hm : missing = orders.filter fun o => (dlookup o.1 accept).isNone) :
    (missing ≠ [] →
      order_clauses (some s) accept = .error (.httpServerError
        ("not implemented, order by " ++ pyJoin ", " (missing.map (·.1)))))
    ∧ (missing = [] →
      order_clauses (some s) accept = .ok (orders.flatMap fun o =>
        match dlookup o.1 accept with
        | some (.single e) => [applyDir o.2 e]
        | some (.exprs es) => es.map (applyDir o.2)
        | none => [])) := by
  subst ho hm
  constructor
  · intro hne
    have hany : ((pySplit s ',').map fun item =>
        if pyEndsWith item " desc" then (pyDropRight item 5, true)
        else (item, false)).any (fun o => (dlookup o.1 accept).isNone) = true := by
      rw [List.any_eq_true]
      obtain ⟨o, homem⟩ := List.exists_mem_of_ne_nil _ hne
      exact ⟨o, (List.mem_filter.mp homem).1, (List.mem_filter.mp homem).2⟩
    simp only [order_clauses, if_neg hs, hany, if_true]
  · intro hnil
    have hany : ((pySplit s ',').map fun item =>
        if pyEndsWith item " desc" then (pyDropRight item 5, true)
        else (item, false)).any (fun o => (dlookup o.1 accept).isNone) = false := by
      rw [List.any_eq_false]
      intro o homem hcon
      have : o ∈ ((pySplit s ',').map fun item =>
          if pyEndsWith item " desc" then (pyDropRight item 5, true)
          else (item, false)).filter fun o => (dlookup o.1 accept).isNone :=
        List.mem_filter.mpr ⟨homem, hcon⟩
      rw [hnil] at this
      exact absurd this (List.not_mem_nil o)
    simp only [order_clauses, if_neg hs, hany, Bool.false_eq_true, if_false]

/-- Witness for `orderClauses_resolution`: `"name desc,age"` resolves to
name-descending-then-age-ascending, and an order with unregistered keys
`foo` and `bar` mixed with the valid `name` raises the error naming both. -/
theorem orderClauses_resolution_witness :
    order_clauses (E := Nat) (some "name desc,age")
      [("name", .single 0), ("age", .single 1)] = .ok [.desc 0, .asc 1]
    ∧ order_clauses (E := Nat) (some "foo,name,bar")
      [("name", .single 0), ("age", .single 1)]
      = .error (.httpServerError "not implemented, order by foo, bar") :=
  ⟨((orderClauses_resolution [("name", .single 0), ("age", .single 1)]
      "name desc,age" (by decide) _ rfl _ rfl).2 (by decide)).trans (by decide),
   ((orderClauses_resolution [("name", .single 0), ("age", .single 1)]
      "foo,name,bar" (by decide) _ rfl _ rfl).1 (by decide)).trans (by decide)⟩

/-- For nonnegative bounds, the Python slice `l[a:b]` is exactly the
half-open index window: drop the first `a` elements, keep the next
`b - a`. -/
theorem pySlice_window (l : List α) (a b : Int) (ha : 0 ≤ a) (hab : a ≤ b) :
    pySlice l a b = (l.drop a.toNat).take (b - a).toNat := by
  simp only [pySlice, pySliceIdx, if_neg (not_lt.mpr ha),
    if_neg (not_lt.mpr (le_trans ha hab))]
  rcases le_or_lt l.length a.toNat with hlen | hlen
  · rw [min_eq_right hlen, List.drop_length, List.drop_eq_nil_of_le hlen]
    simp
  · rw [min_eq_left (le_of_lt hlen), List.take_eq_take, List.length_drop]
    omega

/-- Normal form of a `get_search_results` run: the response component as one
match over the resolved order clauses, with the `accept_order` registry the
subquery branch substitutes made explicit. -/
theorem gsr_run (env : SearchEnv Row E) (st : ViewState Row E) :
    (get_search_results env st).1 =
      match order_clauses (dlookup "order" env.GET)
          (if st.use_subquery_after_filter then
            env.subquery_c.map fun kc => (kc.1, OrderVal.single kc.2)
          else st.accept_order) with
      | .error e => .error e
      | .ok clauses =>
        .ok (applyPager (pager_slice env.pageSizeParam env.pageParam)
          (env.order_by clauses
            ((env.rows.filter env.context_filter).filter fun r =>
              (get_query_filters st.filters env.GET none env.runtime).all
                fun p => p r)),
          ((env.rows.filter env.context_filter).filter fun r =>
            (get_query_filters st.filters env.GET none env.runtime).all
              fun p => p r).length) := by
  cases hb : st.use_subquery_after_filter <;>
    · simp [get_search_results, hb]
      split <;> rfl

/-- Normal form of the view state after a `get_search_results` run. -/
theorem gsr_state (env : SearchEnv Row E) (st : ViewState Row E) :
    (get_search_results env st).2 =
      if st.use_subquery_after_filter then
        { st with accept_order := env.subquery_c.map fun kc => (kc.1, OrderVal.single kc.2) }
      else st := by
  cases hb : st.use_subquery_after_filter <;>
    · simp only [get_search_results, hb, Bool.false_eq_true, if_false, if_true]
      rcases order_clauses (dlookup "order" env.GET) _ with e | clauses <;> rfl

/-- **C3**: with `pageSize = s > 0` the pager is the half-open window
`[page*s, page*s + s)` with `page` defaulting to `0` when absent, and the
paginated search returns exactly that window of the full filtered, ordered
result list; with `pageSize` absent, zero, or negative, pagination is
disabled (no error) and the search behaves exactly as with no pager. -/
theorem pagination_window (env : SearchEnv Row E) (st : ViewState Row E)
    (s p : Int) (hs : 0 < s) (hp : 0 ≤ p)
    (hsz : env.pageSizeParam = some s) (hpg : env.pageParam = some p) :
    pager_slice (some s) (some p) = some (p * s, p * s + s)
    ∧ (∀ s0 : Int, 0 < s0 → pager_slice (some s0) none = some (0, s0))
    ∧ (∀ (s0 : Int) (pg : Option Int), s0 ≤ 0 → pager_slice (some s0) pg = none)
    ∧ (∀ pg : Option Int, pager_slice none pg = none)
    ∧ (∀ s0 : Int, s0 ≤ 0 →
        get_search_results { env with pageSizeParam := some s0 } st
          = get_search_results { env with pageSizeParam := none } st)
    ∧ (∀ allItems count,
        (get_search_results { env with pageSizeParam := none } st).1
          = .ok (allItems, count) →
        (get_search_results env st).1
          = .ok ((allItems.drop (p * s).toNat).take s.toNat, count)) := by
  refine ⟨?_, fun s0 h0 => ?_, fun s0 pg h0 => ?_, fun pg => ?_, fun s0 h0 => ?_, ?_⟩
  · simp [pager_slice, not_le.mpr hs]
  · simp [pager_slice, not_le.mpr h0]
  · simp [pager_slice, h0]
  · rfl
  · simp [get_search_results, pager_slice, h0]
  · intro allItems count h
    rw [gsr_run] at h
    rw [gsr_run, hsz, hpg]
    dsimp only at h
    rcases hoc : order_clauses (dlookup "order" env.GET)
        (if st.use_subquery_after_filter then
          env.subquery_c.map fun kc => (kc.1, OrderVal.single kc.2)
        else st.accept_order) with e | clauses
    · rw [hoc] at h
      exact absurd h (by simp)
    · rw [hoc] at h ⊢
      dsimp only at h ⊢
      have hpair := Except.ok.inj h
      have h1 := congrArg Prod.fst hpair
      have h2 := congrArg Prod.snd hpair
      dsimp only [pager_slice, applyPager] at h1 h2
      have hpager : pager_slice (some s) (some p) = some (p * s, p * s + s) := by
        simp [pager_slice, not_le.mpr hs]
      rw [hpager, h1, h2]
      simp only [applyPager]
      have harith : p * s + s - p * s = s := by ring
      rw [pySlice_window _ _ _ (mul_nonneg hp (le_of_lt hs))
        (le_add_of_nonneg_right (le_of_lt hs)), harith]

/-- Witness for `pagination_window`: `page=1, pageSize=10` over 25 matching
rows yields exactly rows `[10, 20)` while `total` stays 25. -/
theorem pagination_window_witness :
    (get_search_results
      { rows := List.range 25, context_filter := fun _ => true, GET := [],
        pageSizeParam := some 10, pageParam := some 1, runtime := [],
        order_by := fun _ l => l, subquery_c := [] }
      { filters := [], accept_order := ([] : List (String × OrderVal Nat)),
        use_subquery_after_filter := false }).1
      = .ok ([10, 11, 12, 13, 14, 15, 16, 17, 18, 19], 25) :=
  ((pagination_window
    { rows := List.range 25, context_filter := fun _ => true, GET := [],
      pageSizeParam := some 10, pageParam := some 1, runtime := [],
      order_by := fun _ l => l, subquery_c := [] }
    { filters := [], accept_order := ([] : List (String × OrderVal Nat)),
      use_subquery_after_filter := false }
    10 1 (by decide) (by decide) rfl rfl).2.2.2.2.2
    (List.range 25) 25 (by decide)).trans (by decide)

/-- The total returned by a successful `get_search_results` run is the
length of the context-and-filter restricted row set. -/
theorem gsr_count (env : SearchEnv Row E) (st : ViewState Row E)
    (items : List Row) (count : Nat)
    (h : (get_search_results env st).1 = .ok (items, count)) :
    count = ((env.rows.filter env.context_filter).filter fun r =>
      (get_query_filters st.filters env.GET none env.runtime).all
        fun p => p r).length := by
  rw [gsr_run] at h
  rcases hoc : order_clauses (dlookup "order" env.GET)
      (if st.use_subquery_after_filter then
        env.subquery_c.map fun kc => (kc.1, OrderVal.single kc.2)
      else st.accept_order) with e | clauses
  · rw [hoc] at h
    exact absurd h (by simp)
  · rw [hoc] at h
    dsimp only at h
    exact (congrArg Prod.snd (Except.ok.inj h)).symm

/-- **C2**: the `total` of every successful list/search request is the
number of rows matching the context restriction plus all resolved filters,
taken on the unpaginated, unordered filtered set — the same for every
`page`, `pageSize` and store-side ordering. -/
theorem search_total_count (env : SearchEnv Row E) (st : ViewState Row E) :
    (∀ items count, (get_search_results env st).1 = .ok (items, count) →
      count = ((env.rows.filter env.context_filter).filter fun r =>
        (get_query_filters st.filters env.GET none env.runtime).all
          fun p => p r).length)
    ∧ (∀ (ps pg : Option Int) (ob : List (OrderElem E) → List Row → List Row)
        (items count items' count' : _),
        (get_search_results env st).1 = .ok (items, count) →
        (get_search_results
          { env with pageSizeParam := ps, pageParam := pg, order_by := ob } st).1
          = .ok (items', count') →
        count' = count) :=
  ⟨fun items count h => gsr_count env st items count h,
   fun ps pg ob items count items' count' h h' =>
    (gsr_count _ st items' count' h').trans (gsr_count env st items count h).symm⟩

/-- Witness for `search_total_count`: a request returning a 2-row page still
reports the full filtered count 4. -/
theorem search_total_count_witness :
    (4 : Nat) = (([1, 2, 3, 4, 5].filter fun r => decide (r ≤ 4)).filter fun r =>
      (get_query_filters ([] : List (String × (String → BRes (Nat → Bool)))) [] none
        []).all fun p => p r).length :=
  (search_total_count
    { rows := [1, 2, 3, 4, 5], context_filter := fun r => decide (r ≤ 4), GET := [],
      pageSizeParam := some 2, pageParam := some 0, runtime := [],
      order_by := fun _ l => l, subquery_c := ([] : List (String × Nat)) }
    { filters := [], accept_order := [], use_subquery_after_filter := false }).1
    [1, 2] 4 (by decide)

/-- Appending two per-element expansions is a permutation of the combined
per-element expansion. -/
theorem flatMap_append_perm (l : List α) (f g : α → List β) :
    (l.flatMap f ++ l.flatMap g).Perm (l.flatMap fun x => f x ++ g x) := by
  induction l with
  | nil => simp
  | cons a t ih =>
    simp only [List.flatMap_cons, List.append_assoc]
    have hmid : List.Perm (t.flatMap f ++ (g a ++ t.flatMap g))
        (g a ++ (t.flatMap f ++ t.flatMap g)) := by
      have h1 : List.Perm ((t.flatMap f ++ g a) ++ t.flatMap g)
          ((g a ++ t.flatMap f) ++ t.flatMap g) :=
        List.Perm.append_right _ List.perm_append_comm
      rw [List.append_assoc, List.append_assoc] at h1
      exact h1
    exact List.Perm.append_left _ (hmid.trans (List.Perm.append_left _ ih))

theorem filterMap_singles (tmp : List (BRes P)) :
    tmp.filterMap (fun r => match r with | .single p => some p | _ => none)
      = tmp.flatMap fun r => match r with | BRes.single p => [p] | _ => [] := by
  induction tmp with
  | nil => rfl
  | cons a t ih => cases a <;> simp [List.filterMap_cons, ih]

theorem bresElems_decomp (r : BRes P) :
    bresElems r = (match r with | BRes.single p => [p] | _ => [])
      ++ (match r with | BRes.many ps => ps.filterMap id | _ => []) := by
  cases r <;> rfl

theorem gqf_entry_no_exclude (GET : List (String × String))
    (kv : String × (String → BRes P)) :
    gqf_entry GET none kv = (dlookup kv.1 GET).map kv.2 := by
  rcases h : dlookup kv.1 GET with _ | v <;> simp [gqf_entry, h]

/-- **C6**: resolving request filters yields one flat predicate list:
query-parameter keys outside the registry are ignored without error; each
registry key present in the parameters has its builder invoked once on the
raw value, contributing nothing for a `None` result, and one predicate per
non-`None` element for a list result (a plain result contributes itself);
the caller's runtime filters are appended. -/
theorem queryFilters_resolution (filters : List (String × (String → BRes P)))
    (GET : List (String × String)) (runtime : List P) :
    (∀ (k v : String), k ∉ filters.map Prod.fst →
      get_query_filters filters ((k, v) :: GET) none runtime
        = get_query_filters filters GET none runtime)
    ∧ ∃ core, get_query_filters filters GET none runtime = core ++ runtime
        ∧ core.Perm
            ((filters.filterMap fun kv => (dlookup kv.1 GET).map kv.2).flatMap
              bresElems) := by
  constructor
  · intro k v hk
    have htmp : filters.filterMap (gqf_entry ((k, v) :: GET) none)
        = filters.filterMap (gqf_entry GET none) := by
      apply List.filterMap_congr
      intro kv hkv
      have hne : kv.1 ≠ k := by
        intro he
        exact hk (he ▸ List.mem_map_of_mem Prod.fst hkv)
      simp only [gqf_entry, dlookup_cons_ne _ _ _ _ hne]
    simp only [get_query_filters, htmp]
  · refine ⟨(filters.filterMap (gqf_entry GET none)).filterMap
        (fun r => match r with | .single p => some p | _ => none)
      ++ (filters.filterMap (gqf_entry GET none)).flatMap
        (fun r => match r with | .many ps => ps.filterMap id | _ => []), ?_, ?_⟩
    · simp only [get_query_filters, List.append_assoc]
    · have htmp : filters.filterMap (gqf_entry GET none)
          = filters.filterMap fun kv => (dlookup kv.1 GET).map kv.2 :=
        List.filterMap_congr fun kv _ => gqf_entry_no_exclude GET kv
      rw [htmp, filterMap_singles]
      have hperm := flatMap_append_perm
        (filters.filterMap fun kv => (dlookup kv.1 GET).map kv.2)
        (fun r => match r with | BRes.single p => [p] | _ => [])
        (fun r => match r with | BRes.many ps => ps.filterMap id | _ => [])
      refine hperm.trans (List.Perm.of_eq ?_)
      apply List.flatMap_congr ?_
      intro r _
      exact (bresElems_decomp r).symm

/-- Witness for `queryFilters_resolution` at a concrete registry and query
string: the unknown key `zz` is ignored, and the flattening contributes one
predicate for `a`, none for `b`, two for the list result of `c`, with the
runtime filter appended. -/
theorem queryFilters_resolution_witness :
    get_query_filters
      [("a", fun _ => BRes.single 1), ("b", fun _ => BRes.null),
       ("c", fun _ => BRes.many [some 2, none, some 3])]
      [("zz", "q"), ("a", "x"), ("c", "y")] none [9]
      = get_query_filters
      [("a", fun _ => BRes.single 1), ("b", fun _ => BRes.null),
       ("c", fun _ => BRes.many [some 2, none, some 3])]
      [("a", "x"), ("c", "y")] none [9] :=
  (queryFilters_resolution
    [("a", fun _ => BRes.single 1), ("b", fun _ => BRes.null),
     ("c", fun _ => BRes.many [some 2, none, some 3])]
    [("a", "x"), ("c", "y")] [9]).1 "zz" "q" (by decide)

/-- **C9** (counterexample): with `use_subquery_after_filter = True`,
`get_search_results` reassigns the instance's `accept_order` registry during
request handling — here from the registered key `custom` to the subquery
column map `id` — refuting that the registries are fixed for every value of
the flag. -/
theorem registries_fixed_counterexample :
    (get_search_results
      { rows := ([] : List Nat), context_filter := fun _ => true, GET := [],
        pageSizeParam := none, pageParam := none, runtime := [],
        order_by := fun _ l => l, subquery_c := [("id", (7 : Nat))] }
      { filters := [], accept_order := [("custom", OrderVal.single 0)],
        use_subquery_after_filter := true }).2.accept_order
      = [("id", OrderVal.single 7)]
    ∧ ([("id", OrderVal.single (7 : Nat))] : List (String × OrderVal Nat))
        ≠ [("custom", OrderVal.single 0)] :=
  ⟨rfl, by decide⟩

/-- **C9** (amended): the filter registry is never changed by
`get_search_results`, and when `use_subquery_after_filter` is `False`
(the default) the whole view state — both registries included — is exactly
as fixed at registration time; only the `True` flag makes the search rewrite
`accept_order` to the filtered subquery's column map. -/
theorem registries_fixed_amended (env : SearchEnv Row E) (st : ViewState Row E) :
    ((get_search_results env st).2.filters = st.filters)
    ∧ (st.use_subquery_after_filter = false → (get_search_results env st).2 = st) := by
  rw [gsr_state]
  constructor
  · cases hb : st.use_subquery_after_filter <;> simp [hb]
  · intro hb
    simp [hb]

/-- Witness for `registries_fixed_amended` at a concrete view state with the
subquery flag off. -/
theorem registries_fixed_amended_witness :
    (get_search_results
      { rows := ([] : List Nat), context_filter := fun _ => true, GET := [],
        pageSizeParam := none, pageParam := none, runtime := [],
        order_by := fun _ l => l, subquery_c := [("id", (7 : Nat))] }
      { filters := [], accept_order := [("custom", OrderVal.single 0)],
        use_subquery_after_filter := false }).2
      = { filters := [], accept_order := [("custom", OrderVal.single 0)],
          use_subquery_after_filter := false } :=
  (registries_fixed_amended
    { rows := ([] : List Nat), context_filter := fun _ => true, GET := [],
      pageSizeParam := none, pageParam := none, runtime := [],
      order_by := fun _ l => l, subquery_c := [("id", (7 : Nat))] }
    { filters := [], accept_order := [("custom", OrderVal.single 0)],
      use_subquery_after_filter := false }).2 rfl

/-! ### String-key disjointness facts for `auto_filters` -/

theorem str_append_assoc (u v w : String) : (u ++ v) ++ w = u ++ (v ++ w) := by
  apply String.ext
  simp [String.data_append, List.append_assoc]

theorem str_append_right_cancel (u v c : String) (h : u ++ c = v ++ c) : u = v := by
  apply String.ext
  have h2 := congrArg String.data h
  rw [String.data_append, String.data_append] at h2
  exact (List.append_left_inj _).mp h2

theorem str_append_left_cancel (u a b : String) (h : u ++ a = u ++ b) : a = b := by
  apply String.ext
  have h2 := congrArg String.data h
  rw [String.data_append, String.data_append] at h2
  exact (List.append_right_inj _).mp h2

theorem str_append_ne_self (u c : String) (hc : c.data ≠ []) : u ++ c ≠ u := by
  intro h
  have h2 := congrArg (fun s : String => s.data.length) h
  simp only [String.data_append, List.length_append] at h2
  exact hc (List.length_eq_zero.mp (by omega))

/-- Two strings with fixed suffixes differing at position `i` from the right
are never equal, whatever the left parts. -/
theorem str_append_ne_of_rev (u v c d : String) (i : Nat)
    (hic : i < c.data.length) (hid : i < d.data.length)
    (hne : c.data.reverse.get? i ≠ d.data.reverse.get? i) :
    u ++ c ≠ v ++ d := by
  intro h
  have hd : u.data ++ c.data = v.data ++ d.data := by
    have h2 := congrArg String.data h
    rwa [String.data_append, String.data_append] at h2
  have h2 := congrArg (fun l : List Char => l.reverse.get? i) hd
  simp only [List.reverse_append] at h2
  rw [List.get?_append (show i < c.data.reverse.length by simpa using hic),
      List.get?_append (show i < d.data.reverse.length by simpa using hid)] at h2
  exact hne h2

theorem plain_ne_suffixed (pfx x y sfx : String) (h : x ≠ y ++ sfx) :
    pfx ++ x ≠ (pfx ++ y) ++ sfx := by
  intro he
  rw [str_append_assoc] at he
  exact h (str_append_left_cancel _ _ _ he)

theorem suffixed_ne_of_key_ne (pfx x y sfx : String) (h : x ≠ y) :
    (pfx ++ x) ++ sfx ≠ (pfx ++ y) ++ sfx := by
  intro he
  exact h (str_append_left_cancel _ _ _ (str_append_right_cancel _ _ _ he))

theorem dlookup_append_of_none (k : String) (l1 l2 : List (String × β))
    (h : dlookup k l1 = none) : dlookup k (l1 ++ l2) = dlookup k l2 := by
  induction l1 with
  | nil => rfl
  | cons a t ih =>
    by_cases hk : k = a.1
    · simp [dlookup, hk] at h
    · simp only [dlookup, hk, List.cons_append, if_neg hk] at h ⊢
      exact ih h

theorem dlookup_append_of_some (k : String) (l1 l2 : List (String × β)) (b : β)
    (h : dlookup k l1 = some b) : dlookup k (l1 ++ l2) = some b := by
  induction l1 with
  | nil => simp [dlookup] at h
  | cons a t ih =>
    by_cases hk : k = a.1
    · simp only [dlookup, hk, if_pos rfl, List.cons_append] at h ⊢
      exact h
    · simp only [dlookup, hk, List.cons_append, if_neg hk] at h ⊢
      exact ih h

theorem dlookup_flatMap_none (F : α → List (String × β)) (l : List α) (k : String)
    (hall : ∀ a ∈ l, dlookup k (F a) = none) :
    dlookup k (l.flatMap F) = none := by
  induction l with
  | nil => rfl
  | cons a t ih =>
    rw [List.flatMap_cons, dlookup_append_of_none _ _ _ (hall a (List.mem_cons_self a t))]
    exact ih fun x hx => hall x (List.mem_cons_of_mem a hx)

theorem dlookup_flatMap_eq (F : α → List (String × β)) (l : List α) (item : α)
    (k : String) (b : β) (hmem : item ∈ l) (hit : dlookup k (F item) = some b)
    (hothers : ∀ a ∈ l, a ≠ item → dlookup k (F a) = none) :
    dlookup k (l.flatMap F) = some b := by
  induction l with
  | nil => cases hmem
  | cons a t ih =>
    rw [List.flatMap_cons]
    by_cases ha : a = item
    · subst ha
      exact dlookup_append_of_some _ _ _ _ hit
    · rw [dlookup_append_of_none _ _ _ (hothers a (List.mem_cons_self a t) ha)]
      exact ih ((List.mem_cons.mp hmem).resolve_left fun he => ha he.symm)
        fun x hx hne => hothers x (List.mem_cons_of_mem a hx) hne

/-- Lookup of a key foreign to one attribute's `auto_filters` block finds
nothing there. -/
theorem dlookup_item_none (coerce : ColAttr → String → V) (pfx : String)
    (a : ColAttr) (k : String)
    (h0 : k ≠ pfx ++ a.key)
    (h1 : k ≠ (pfx ++ a.key) ++ "_like")
    (h2 : k ≠ (pfx ++ a.key) ++ "_gt") (h3 : k ≠ (pfx ++ a.key) ++ "_ge")
    (h4 : k ≠ (pfx ++ a.key) ++ "_lt") (h5 : k ≠ (pfx ++ a.key) ++ "_le") :
    dlookup k (auto_filters_item coerce pfx a) = none := by
  by_cases hstr : a.colType = .string <;>
    simp [auto_filters_item, dlookup, hstr, h0, h1, h2, h3, h4, h5]

/-- The suffixes `auto_filters` appends to a field key. -/
def filterSuffixes : List String := ["_like", "_gt", "_ge", "_lt", "_le"]

/-- Any two distinct reserved suffixes stay distinguishable after arbitrary
prefixes. -/
theorem suffix_pair_ne (s1 s2 : String) (hs1 : s1 ∈ filterSuffixes)
    (hs2 : s2 ∈ filterSuffixes) (hne : s1 ≠ s2) (u v : String) :
    u ++ s1 ≠ v ++ s2 := by
  fin_cases hs1 <;> fin_cases hs2 <;>
    first
      | exact absurd rfl hne
      | exact str_append_ne_of_rev u v _ _ 0 (by decide) (by decide) (by decide)
      | exact str_append_ne_of_rev u v _ _ 1 (by decide) (by decide) (by decide)

/-- A key of `item`'s block is absent from the block of a different
attribute `a`, provided field names are unique and no field name is another
field name with a reserved suffix appended. -/
theorem dlookup_other_block_none (coerce : ColAttr → String → V) (pfx : String)
    (a item : ColAttr) (hkeyne : a.key ≠ item.key)
    (hsfx1 : ∀ sfx ∈ filterSuffixes, a.key ≠ item.key ++ sfx)
    (hsfx2 : ∀ sfx ∈ filterSuffixes, item.key ≠ a.key ++ sfx) :
    dlookup (pfx ++ item.key) (auto_filters_item coerce pfx a) = none
    ∧ ∀ sfx ∈ filterSuffixes,
      dlookup ((pfx ++ item.key) ++ sfx) (auto_filters_item coerce pfx a) = none := by
  constructor
  · apply dlookup_item_none
    · intro he
      exact hkeyne (str_append_left_cancel _ _ _ he).symm
    all_goals
      exact plain_ne_suffixed pfx item.key a.key _ (hsfx2 _ (by decide))
  · intro sfx hsfxmem
    fin_cases hsfxmem <;>
      (apply dlookup_item_none <;>
        first
          | (intro he
             rw [str_append_assoc] at he
             exact hsfx1 _ (by decide) ((str_append_left_cancel _ _ _ he).symm))
          | exact suffixed_ne_of_key_ne pfx item.key a.key _
              fun he => hkeyne he.symm
          | exact str_append_ne_of_rev _ _ _ _ 0 (by decide) (by decide) (by decide)
          | exact str_append_ne_of_rev _ _ _ _ 1 (by decide) (by decide) (by decide))

theorem dlookup_item_eq (coerce : ColAttr → String → V) (pfx : String)
    (item : ColAttr) :
    dlookup (pfx ++ item.key) (auto_filters_item coerce pfx item)
      = some (fun x => .eq item (coerce item x)) := by
  simp [auto_filters_item, dlookup]

theorem dlookup_item_like (coerce : ColAttr → String → V) (pfx : String)
    (item : ColAttr) (hstr : item.colType = .string) :
    dlookup ((pfx ++ item.key) ++ "_like") (auto_filters_item coerce pfx item)
      = some (fun x => .ilike item ("%" ++ x ++ "%")) := by
  have h0 : (pfx ++ item.key) ++ "_like" ≠ pfx ++ item.key :=
    str_append_ne_self _ _ (by decide)
  simp [auto_filters_item, dlookup, hstr, h0]

theorem dlookup_item_gt (coerce : ColAttr → String → V) (pfx : String)
    (item : ColAttr) :
    dlookup ((pfx ++ item.key) ++ "_gt") (auto_filters_item coerce pfx item)
      = some (fun x => .gt item (coerce item x)) := by
  have h0 : (pfx ++ item.key) ++ "_gt" ≠ pfx ++ item.key :=
    str_append_ne_self _ _ (by decide)
  have h1 : (pfx ++ item.key) ++ "_gt" ≠ (pfx ++ item.key) ++ "_like" :=
    str_append_ne_of_rev _ _ _ _ 0 (by decide) (by decide) (by decide)
  by_cases hstr : item.colType = .string <;>
    simp [auto_filters_item, dlookup, hstr, h0, h1]

theorem dlookup_item_ge (coerce : ColAttr → String → V) (pfx : String)
    (item : ColAttr) :
    dlookup ((pfx ++ item.key) ++ "_ge") (auto_filters_item coerce pfx item)
      = some (fun x => .ge item (coerce item x)) := by
  have h0 : (pfx ++ item.key) ++ "_ge" ≠ pfx ++ item.key :=
    str_append_ne_self _ _ (by decide)
  have h1 : (pfx ++ item.key) ++ "_ge" ≠ (pfx ++ item.key) ++ "_like" :=
    str_append_ne_of_rev _ _ _ _ 1 (by decide) (by decide) (by decide)
  have h2 : (pfx ++ item.key) ++ "_ge" ≠ (pfx ++ item.key) ++ "_gt" :=
    str_append_ne_of_rev _ _ _ _ 0 (by decide) (by decide) (by decide)
  by_cases hstr : item.colType = .string <;>
    simp [auto_filters_item, dlookup, hstr, h0, h1, h2]

theorem dlookup_item_lt (coerce : ColAttr → String → V) (pfx : String)
    (item : ColAttr) :
    dlookup ((pfx ++ item.key) ++ "_lt") (auto_filters_item coerce pfx item)
      = some (fun x => .lt item (coerce item x)) := by
  have h0 : (pfx ++ item.key) ++ "_lt" ≠ pfx ++ item.key :=
    str_append_ne_self _ _ (by decide)
  have h1 : (pfx ++ item.key) ++ "_lt" ≠ (pfx ++ item.key) ++ "_like" :=
    str_append_ne_of_rev _ _ _ _ 0 (by decide) (by decide) (by decide)
  have h2 : (pfx ++ item.key) ++ "_lt" ≠ (pfx ++ item.key) ++ "_gt" :=
    str_append_ne_of_rev _ _ _ _ 1 (by decide) (by decide) (by decide)
  have h3 : (pfx ++ item.key) ++ "_lt" ≠ (pfx ++ item.key) ++ "_ge" :=
    str_append_ne_of_rev _ _ _ _ 0 (by decide) (by decide) (by decide)
  by_cases hstr : item.colType = .string <;>
    simp [auto_filters_item, dlookup, hstr, h0, h1, h2, h3]

theorem dlookup_item_le (coerce : ColAttr → String → V) (pfx : String)
    (item : ColAttr) :
    dlookup ((pfx ++ item.key) ++ "_le") (auto_filters_item coerce pfx item)
      = some (fun x => .le item (coerce item x)) := by
  have h0 : (pfx ++ item.key) ++ "_le" ≠ pfx ++ item.key :=
    str_append_ne_self _ _ (by decide)
  have h1 : (pfx ++ item.key) ++ "_le" ≠ (pfx ++ item.key) ++ "_like" :=
    str_append_ne_of_rev _ _ _ _ 1 (by decide) (by decide) (by decide)
  have h2 : (pfx ++ item.key) ++ "_le" ≠ (pfx ++ item.key) ++ "_gt" :=
    str_append_ne_of_rev _ _ _ _ 0 (by decide) (by decide) (by decide)
  have h3 : (pfx ++ item.key) ++ "_le" ≠ (pfx ++ item.key) ++ "_ge" :=
    str_append_ne_of_rev _ _ _ _ 1 (by decide) (by decide) (by decide)
  have h4 : (pfx ++ item.key) ++ "_le" ≠ (pfx ++ item.key) ++ "_lt" :=
    str_append_ne_of_rev _ _ _ _ 0 (by decide) (by decide) (by decide)
  by_cases hstr : item.colType = .string <;>
    simp [auto_filters_item, dlookup, hstr, h0, h1, h2, h3, h4]

theorem dlookup_item_like_none (coerce : ColAttr → String → V) (pfx : String)
    (item : ColAttr) (hstr : ¬ item.colType = .string) :
    dlookup ((pfx ++ item.key) ++ "_like") (auto_filters_item coerce pfx item)
      = none := by
  have h0 : (pfx ++ item.key) ++ "_like" ≠ pfx ++ item.key :=
    str_append_ne_self _ _ (by decide)
  have h2 : (pfx ++ item.key) ++ "_like" ≠ (pfx ++ item.key) ++ "_gt" :=
    str_append_ne_of_rev _ _ _ _ 0 (by decide) (by decide) (by decide)
  have h3 : (pfx ++ item.key) ++ "_like" ≠ (pfx ++ item.key) ++ "_ge" :=
    str_append_ne_of_rev _ _ _ _ 1 (by decide) (by decide) (by decide)
  have h4 : (pfx ++ item.key) ++ "_like" ≠ (pfx ++ item.key) ++ "_lt" :=
    str_append_ne_of_rev _ _ _ _ 0 (by decide) (by decide) (by decide)
  have h5 : (pfx ++ item.key) ++ "_like" ≠ (pfx ++ item.key) ++ "_le" :=
    str_append_ne_of_rev _ _ _ _ 1 (by decide) (by decide) (by decide)
  simp [auto_filters_item, dlookup, hstr, h0, h2, h3, h4, h5]

/-- **C5**: for every mapped scalar column field of the target type (with
the sane-schema assumptions that field names are unique and no field name is
another field's name with a reserved filter suffix appended), `auto_filters`
produces the equality key building `attr == coerce(value)`, the four
ordering keys `_gt`, `_ge`, `_lt`, `_le` building the corresponding
comparisons of the coerced value, and the `_like` key building the
case-insensitive `%value%` substring match exactly when the column type is
`String` — non-text fields get no `_like` key at all. -/
theorem autoFilters_keys (coerce : ColAttr → String → V) (attrs : List ColAttr)
    (pfx : String) (item : ColAttr) (hmem : item ∈ attrs)
    (hnodup : (attrs.map ColAttr.key).Nodup)
    (hsfx : ∀ x ∈ attrs, ∀ y ∈ attrs, ∀ sfx ∈ filterSuffixes,
      x.key ≠ y.key ++ sfx) :
    dlookup (pfx ++ item.key) (auto_filters coerce attrs pfx)
      = some (fun x => .eq item (coerce item x))
    ∧ dlookup ((pfx ++ item.key) ++ "_gt") (auto_filters coerce attrs pfx)
      = some (fun x => .gt item (coerce item x))
    ∧ dlookup ((pfx ++ item.key) ++ "_ge") (auto_filters coerce attrs pfx)
      = some (fun x => .ge item (coerce item x))
    ∧ dlookup ((pfx ++ item.key) ++ "_lt") (auto_filters coerce attrs pfx)
      = some (fun x => .lt item (coerce item x))
    ∧ dlookup ((pfx ++ item.key) ++ "_le") (auto_filters coerce attrs pfx)
      = some (fun x => .le item (coerce item x))
    ∧ (item.colType = .string →
        dlookup ((pfx ++ item.key) ++ "_like") (auto_filters coerce attrs pfx)
          = some (fun x => .ilike item ("%" ++ x ++ "%")))
    ∧ (item.colType ≠ .string →
        dlookup ((pfx ++ item.key) ++ "_like") (auto_filters coerce attrs pfx)
          = none) := by
  have hother : ∀ a ∈ attrs, a ≠ item →
      dlookup (pfx ++ item.key) (auto_filters_item coerce pfx a) = none
      ∧ ∀ sfx ∈ filterSuffixes,
        dlookup ((pfx ++ item.key) ++ sfx) (auto_filters_item coerce pfx a)
          = none := by
    intro a hA hne
    have hkeyne : a.key ≠ item.key := fun he =>
      hne (List.inj_on_of_nodup_map hnodup hA hmem he)
    exact dlookup_other_block_none coerce pfx a item hkeyne
      (fun sfx hs => hsfx a hA item hmem sfx hs)
      (fun sfx hs => hsfx item hmem a hA sfx hs)
  refine ⟨?_, ?_, ?_, ?_, ?_, fun hstr => ?_, fun hstr => ?_⟩
  · exact dlookup_flatMap_eq _ attrs item _ _ hmem (dlookup_item_eq coerce pfx item)
      fun a hA hne => (hother a hA hne).1
  · exact dlookup_flatMap_eq _ attrs item _ _ hmem (dlookup_item_gt coerce pfx item)
      fun a hA hne => (hother a hA hne).2 _ (by decide)
  · exact dlookup_flatMap_eq _ attrs item _ _ hmem (dlookup_item_ge coerce pfx item)
      fun a hA hne => (hother a hA hne).2 _ (by decide)
  · exact dlookup_flatMap_eq _ attrs item _ _ hmem (dlookup_item_lt coerce pfx item)
      fun a hA hne => (hother a hA hne).2 _ (by decide)
  · exact dlookup_flatMap_eq _ attrs item _ _ hmem (dlookup_item_le coerce pfx item)
      fun a hA hne => (hother a hA hne).2 _ (by decide)
  · exact dlookup_flatMap_eq _ attrs item _ _ hmem
      (dlookup_item_like coerce pfx item hstr)
      fun a hA hne => (hother a hA hne).2 _ (by decide)
  · apply dlookup_flatMap_none
    intro a hA
    by_cases hne : a = item
    · subst hne
      exact dlookup_item_like_none coerce pfx a hstr
    · exact (hother a hA hne).2 _ (by decide)

/-- Witness for `autoFilters_keys` on a two-field schema: the text field
`name` gets a `name_like` builder, the integer field `age` gets none, and
`age_gt` builds the coerced greater-than comparison. -/
theorem autoFilters_keys_witness :
    dlookup "name_like" (auto_filters (V := String) (fun _ s => s)
        [⟨"name", .string⟩, ⟨"age", .integer⟩] "")
      = some (fun x => .ilike ⟨"name", .string⟩ ("%" ++ x ++ "%"))
    ∧ dlookup "age_like" (auto_filters (V := String) (fun _ s => s)
        [⟨"name", .string⟩, ⟨"age", .integer⟩] "") = none
    ∧ dlookup "age_gt" (auto_filters (V := String) (fun _ s => s)
        [⟨"name", .string⟩, ⟨"age", .integer⟩] "")
      = some (fun x => .gt ⟨"age", .integer⟩ x) :=
  ⟨(autoFilters_keys (fun _ s => s) [⟨"name", .string⟩, ⟨"age", .integer⟩] ""
      ⟨"name", .string⟩ (by decide) (by decide) (by decide)).2.2.2.2.2.1 rfl,
   (autoFilters_keys (fun _ s => s) [⟨"name", .string⟩, ⟨"age", .integer⟩] ""
      ⟨"age", .integer⟩ (by decide) (by decide) (by decide)).2.2.2.2.2.2
      (by decide),
   (autoFilters_keys (fun _ s => s) [⟨"name", .string⟩, ⟨"age", .integer⟩] ""
      ⟨"age", .integer⟩ (by decide) (by decide) (by decide)).2.1⟩

/-- **C1**: given a unique row matching the update's restrictions —
(a) a caller-supplied version differing from the stored version makes
`update` fail with `HTTPConflict` carrying the check's description and
leaves the store untouched, a subsequent `get_by_id` still returning the
original row; (b) a `StaleDataError` raised at the transaction's commit is
translated to the same `HTTPConflict`, nothing persisted; (c) any error of
the `apply_changes` step other than `VersionCheckError` (and the staleness
class) aborts the transaction and propagates to the caller unmodified. -/
theorem update_conflict_policy (db : List Entity) (cf idf : Entity → Bool)
    (input : UpdateInput) (old : Entity)
    (h : db.filter (fun r => cf r && idf r) = [old]) :
    (∀ v, input.versionParam = some v → v ≠ old.version →
      update entity_apply_changes db cf idf input none
        = (.error (.httpConflict "version check failed"), db)
      ∧ get_by_id db cf idf = .ok old)
    ∧ (∀ (ac : Entity → UpdateInput → Except PyErr Entity) (newRow : Entity)
        (m : String), ac old input = .ok newRow →
        update ac db cf idf input (some m) = (.error (.httpConflict m), db))
    ∧ (∀ (ac : Entity → UpdateInput → Except PyErr Entity) (e : PyErr),
        ac old input = .error e →
        (∀ m, e ≠ .versionCheckError m) → (∀ m, e ≠ .staleDataError m) →
        update ac db cf idf input none = (.error e, db)) := by
  have hg : get_by_id db cf idf = .ok old := by
    simp [get_by_id, h, one]
  refine ⟨fun v hv hne => ⟨?_, hg⟩, fun ac newRow m hok => ?_, fun ac e herr hnv hns => ?_⟩
  · simp only [update, transaction_scope, hg, entity_apply_changes, hv,
      if_neg hne]
  · simp only [update, transaction_scope, hg, hok]
  · simp only [update, transaction_scope, hg, herr]

/-- Witness for `update_conflict_policy`: a store holding the single row
`id 1, version 5`; (a) an update distributing version 4 conflicts and
persists nothing; (b) a stale commit is translated to a conflict carrying
the staleness description; (c) an unrelated error propagates as itself. -/
theorem update_conflict_policy_witness :
    update entity_apply_changes [⟨1, 5, "a"⟩] (fun _ => true) (fun _ => true)
      ⟨some 4, "b"⟩ none
      = (.error (.httpConflict "version check failed"), [⟨1, 5, "a"⟩])
    ∧ update (fun o _ => .ok o) [⟨1, 5, "a"⟩] (fun _ => true) (fun _ => true)
      ⟨some 4, "b"⟩ (some "stale write")
      = (.error (.httpConflict "stale write"), [⟨1, 5, "a"⟩])
    ∧ update (fun _ _ => .error (.otherError "boom")) [⟨1, 5, "a"⟩]
      (fun _ => true) (fun _ => true) ⟨some 4, "b"⟩ none
      = (.error (.otherError "boom"), [⟨1, 5, "a"⟩]) :=
  ⟨((update_conflict_policy [⟨1, 5, "a"⟩] (fun _ => true) (fun _ => true)
      ⟨some 4, "b"⟩ ⟨1, 5, "a"⟩ (by decide)).1 4 rfl (by decide)).1,
   (update_conflict_policy [⟨1, 5, "a"⟩] (fun _ => true) (fun _ => true)
      ⟨some 4, "b"⟩ ⟨1, 5, "a"⟩ (by decide)).2.1 (fun o _ => .ok o) ⟨1, 5, "a"⟩
      "stale write" rfl,
   (update_conflict_policy [⟨1, 5, "a"⟩] (fun _ => true) (fun _ => true)
      ⟨some 4, "b"⟩ ⟨1, 5, "a"⟩ (by decide)).2.2 (fun _ _ => .error (.otherError "boom"))
      (.otherError "boom") rfl (fun m hc => by simp at hc) (fun m hc => by simp at hc)⟩

/-- UTF-8 encoding distributes over string concatenation. -/
theorem strBytes_append (s t : String) :
    strBytes (s ++ t) = strBytes s ++ strBytes t := by
  simp [strBytes, String.data_append]

theorem strBytes_foldl (l : List String) (acc : String) :
    strBytes (l.foldl (fun r s => r ++ s) acc)
      = strBytes acc ++ (l.map strBytes).flatten := by
  induction l generalizing acc with
  | nil => simp
  | cons a t ih =>
    simp only [List.foldl_cons, List.map_cons, List.flatten_cons, ih,
      strBytes_append, List.append_assoc]

/-- **C10**: for every encoder chunk stream, the renderer's streaming path
hands the response an iterator of UTF-8 encoded chunks whose concatenation
is byte-identical to the UTF-8 bytes of the single materialized string the
non-streaming fallback path returns for the same value. -/
theorem render_stream_byte_identical (iterencode : Val → List String) (v : Val) :
    pyramid_render iterencode 2 true v = .appIter ((iterencode v).map strBytes)
    ∧ pyramid_render iterencode 2 false v = .body (String.join (iterencode v))
    ∧ ((iterencode v).map strBytes).flatten = strBytes (String.join (iterencode v)) := by
  refine ⟨rfl, rfl, ?_⟩
  rw [show String.join (iterencode v)
      = (iterencode v).foldl (fun r s => r ++ s) "" from rfl, strBytes_foldl]
  simp [strBytes]

end PyLiant
